import Mathlib

/-!
Shallow embedding of `src/server/server.py` (SyncApp server): the versioned
record store behind the REST handlers, the WebSocket `ConnectionManager`
(device registry + broadcast hub), the offline-queue replay loop and the
`compute_request` handler.

Modelling conventions:
* wall-clock timestamps (`datetime.utcnow()`) become a `Nat` logical clock
  passed to each operation;
* Python floats become `ℚ`; `math.sqrt` becomes `Rat.sqrt`, which agrees
  with float sqrt on perfect squares (the only values the spec pins down);
* JSON / dict key presence becomes `Option` (`none` = key absent);
* Python dicts (insertion ordered) become association lists;
* a live `WebSocket` handle is modelled by the one observable the manager
  logic depends on: whether `send_json` on it succeeds (`Bool`);
* the fresh `str(uuid.uuid4())` primary keys are supplied as explicit
  oracle inputs, since the generator is external nondeterminism.
-/

namespace SyncApp

/-- A row of the `records` table (`DataRecord`, server.py lines 38-46).
`value` is nullable in the model because the offline-replay create branch
can insert a row whose `value` key was absent (`op["data"].get("value")`
evaluates to `None`). -/
structure DataRecord where
  id : String
  title : Option String
  value : Option ℚ
  computed_result : Option ℚ
  created_at : ℕ
  updated_at : ℕ
  version : ℕ
  deriving Repr, DecidableEq

/-- A JSON request payload / `op["data"]` dict; `none` models an absent key. -/
structure Payload where
  title : Option String
  value : Option ℚ
  computed_result : Option ℚ
  version : Option ℕ
  deriving Repr, DecidableEq

/-- `db.query(DataRecord).filter(DataRecord.id == record_id).first()`. -/
def findRecord (db : List DataRecord) (record_id : String) : Option DataRecord :=
  db.find? (fun r => r.id == record_id)

/-- In-place ORM mutation of the row(s) keyed by `r'.id`, then `db.commit()`. -/
def replaceRecord (db : List DataRecord) (r' : DataRecord) : List DataRecord :=
  db.map (fun r => if r.id == r'.id then r' else r)

/-- `db.delete(record); db.commit()` for the row found under `record_id`. -/
def eraseRecord (db : List DataRecord) (record_id : String) : List DataRecord :=
  db.eraseP (fun r => r.id == record_id)

/-- Outbound broadcast events.  `Option`-typed timestamp / field slots model
JSON keys that some emission sites include and others omit (e.g. the replay
`data_created` carries no `version` or `timestamp`, lines 339-346, while the
REST one does, lines 220-229). -/
inductive Event where
  | device_status (connected_devices : List String) (timestamp : ℕ)
  | data_created (id : String) (title : Option String) (value : Option ℚ)
      (version : Option ℕ) (timestamp : Option ℕ)
  | data_updated (id : String) (title : Option String) (value : Option ℚ)
      (computed_result : Option (Option ℚ)) (version : ℕ) (timestamp : Option ℕ)
  | data_deleted (record_id : String) (timestamp : Option ℕ)
  | compute_result (record_id : String) (result : ℚ) (version : ℕ) (timestamp : ℕ)
  deriving Repr, DecidableEq

/-- Result of the REST `PUT` handler, lines 233-269. -/
inductive UpdateResult where
  | notFound
  | conflict (current_version : ℕ)
  | updated (version : ℕ)
  deriving Repr, DecidableEq

/-- REST `POST /api/data` (`create_data`, lines 208-231): builds the row with
a missing `value` normalised to 0 (`payload.get("value", 0)`), commits, then
broadcasts `data_created` (with `version` and `timestamp`) excluding nobody.
Returns (created row, new store, broadcast log of (event, exclude) pairs). -/
def create_data (db : List DataRecord) (payload : Payload) (newId : String) (now : ℕ) :
    DataRecord × List DataRecord × List (Event × Option String) :=
  let record : DataRecord :=
    { id := newId, title := payload.title, value := some (payload.value.getD 0),
      computed_result := none, created_at := now, updated_at := now, version := 1 }
  (record, db ++ [record],
    [(Event.data_created record.id record.title record.value (some record.version) (some now),
      none)])

/-- The success path of `update_data` (lines 250-254): apply exactly the
payload keys that are present, bump `version` by 1, stamp `updated_at`. -/
def condApply (r : DataRecord) (payload : Payload) (now : ℕ) : DataRecord :=
  { r with
    title := (match payload.title with | some t => some t | none => r.title),
    value := (match payload.value with | some v => some v | none => r.value),
    computed_result :=
      (match payload.computed_result with | some c => some c | none => r.computed_result),
    version := r.version + 1,
    updated_at := now }

/-- REST `PUT /api/data/{record_id}` (`update_data`, lines 233-269): 404 when
the row is absent; version conflict (reporting the current version, store
untouched) when `payload.get("version", 0)` is nonzero and stale; otherwise
apply the patch and broadcast `data_updated` excluding nobody. -/
def update_data (db : List DataRecord) (record_id : String) (payload : Payload) (now : ℕ) :
    UpdateResult × List DataRecord × List (Event × Option String) :=
  match findRecord db record_id with
  | none => (UpdateResult.notFound, db, [])
  | some record =>
    let client_version := payload.version.getD 0
    if client_version ≠ 0 ∧ client_version ≠ record.version then
      (UpdateResult.conflict record.version, db, [])
    else
      let r' := condApply record payload now
      (UpdateResult.updated r'.version, replaceRecord db r',
        [(Event.data_updated r'.id r'.title r'.value (some r'.computed_result) r'.version
            (some now), none)])

/-- One buffered offline operation (`sync_offline_queue`).  The `create`
constructor carries the fresh uuid the store will assign; the client cannot
choose it. -/
inductive OfflineOp where
  | create (newId : String) (data : Payload)
  | update (record_id : String) (data : Payload)
  | delete (record_id : String)
  deriving Repr, DecidableEq

/-- The offline-replay `update` success path (lines 353-356): only `title`,
`value`, `version` and `updated_at` are written; `computed_result` is never
read out of `op["data"]`. -/
def replayApply (r : DataRecord) (data : Payload) (now : ℕ) : DataRecord :=
  { r with
    title := (match data.title with | some t => some t | none => r.title),
    value := (match data.value with | some v => some v | none => r.value),
    version := r.version + 1,
    updated_at := now }

/-- One iteration of the `sync_offline_queue` loop (lines 330-378), returning
the new store and the broadcasts issued as (event, `exclude_device`) pairs.
The create branch stores `op["data"].get("value")` as is (`None` when the key
is absent, not 0), and its `data_created` event carries neither `version` nor
`timestamp`; update/delete on an absent row fall through silently. -/
def replayCreateRow (newId : String) (data : Payload) (now : ℕ) : DataRecord :=
  { id := newId, title := data.title, value := data.value,
    computed_result := none, created_at := now, updated_at := now, version := 1 }

def replayOp (device_id : String) (now : ℕ) (db : List DataRecord) :
    OfflineOp → List DataRecord × List (Event × Option String)
  | OfflineOp.create newId data =>
    let record : DataRecord := replayCreateRow newId data now
    (db ++ [record],
      [(Event.data_created record.id record.title record.value none none, some device_id)])
  | OfflineOp.update record_id data =>
    match findRecord db record_id with
    | none => (db, [])
    | some record =>
      let r' := replayApply record data now
      (replaceRecord db r',
        [(Event.data_updated r'.id r'.title r'.value none r'.version none, some device_id)])
  | OfflineOp.delete record_id =>
    match findRecord db record_id with
    | none => (db, [])
    | some _ =>
      (eraseRecord db record_id, [(Event.data_deleted record_id none, some device_id)])

/-- The whole `sync_offline_queue` handler body: operations strictly in the
order received, each operation's store effect feeding the next, broadcast
logs concatenated; nothing rolls back. -/
def replayOps (device_id : String) (now : ℕ) (db : List DataRecord) :
    List OfflineOp → List DataRecord × List (Event × Option String)
  | [] => (db, [])
  | op :: rest =>
    let step := replayOp device_id now db op
    let tail := replayOps device_id now step.1 rest
    (tail.1, step.2 ++ tail.2)

/-- The `compute_request` success path on a loaded row with numeric value `v`
(lines 386-388): `computed_result = sqrt(abs(value)) * 100`, version bumped,
timestamp stamped. -/
def computeApply (r : DataRecord) (v : ℚ) (now : ℕ) : DataRecord :=
  { r with
    computed_result := some (Rat.sqrt (abs v) * 100),
    version := r.version + 1,
    updated_at := now }

/-- The `compute_request` branch (lines 380-397): silent no-op (no store
change, no broadcast, no error response) when the row is absent; otherwise
compute, commit, and broadcast `compute_result` excluding the requester.
A row whose `value` is NULL makes `abs(record.value)` raise `TypeError`
before any assignment, killing the session; that is the `none` result. -/
def computeRequest (device_id : String) (now : ℕ) (db : List DataRecord)
    (record_id : String) : Option (List DataRecord × List (Event × Option String)) :=
  match findRecord db record_id with
  | none => some (db, [])
  | some record =>
    match record.value with
    | none => none
    | some v =>
      let r' := computeApply record v now
      some (replaceRecord db r',
        [(Event.compute_result record_id (Rat.sqrt (abs v) * 100) r'.version now,
          some device_id)])

/-- The three successful-mutation shapes a stored record can undergo
(REST conditional update, offline-replay update, compute). -/
inductive Mutation where
  | condUpdate (payload : Payload)
  | replayUpdate (data : Payload)
  | compute
  deriving Repr, DecidableEq

/-- Apply one mutation to a loaded record at time `now`; `none` when the
source path does not commit a mutation (version conflict, or compute raising
on a NULL `value`). -/
def applyMutation (r : DataRecord) (m : Mutation) (now : ℕ) : Option DataRecord :=
  match m with
  | Mutation.condUpdate payload =>
    let client_version := payload.version.getD 0
    if client_version ≠ 0 ∧ client_version ≠ r.version then none
    else some (condApply r payload now)
  | Mutation.replayUpdate data => some (replayApply r data now)
  | Mutation.compute =>
    match r.value with
    | none => none
    | some v => some (computeApply r v now)

/-- A run of successful mutations on one record: each step commits and its
result feeds the next step. -/
inductive RunMutations : DataRecord → List (Mutation × ℕ) → DataRecord → Prop where
  | nil (r : DataRecord) : RunMutations r [] r
  | cons {r r' r'' : DataRecord} {m : Mutation} {now : ℕ} {rest : List (Mutation × ℕ)} :
      applyMutation r m now = some r' → RunMutations r' rest r'' →
      RunMutations r ((m, now) :: rest) r''

/-- `device_registry[device_id]` entry (lines 112-116); `devtype` models the
dict key `"type"`. -/
structure DeviceInfo where
  devtype : String
  connected_at : ℕ
  last_sync : Option ℕ
  deriving Repr, DecidableEq

/-- `ConnectionManager` state (lines 104-107): two insertion-ordered dicts
keyed by device id. -/
structure ConnectionManager where
  active_connections : List (String × Bool)
  device_registry : List (String × DeviceInfo)
  deriving Repr, DecidableEq

/-- `d[k] = v` on an insertion-ordered dict: overwrite in place, else append. -/
def dictSet {α : Type} (l : List (String × α)) (k : String) (v : α) : List (String × α) :=
  if l.any (fun p => p.1 == k) then l.map (fun p => if p.1 == k then (k, v) else p)
  else l ++ [(k, v)]

/-- `del d[k]` (in the modelled uses the key is present exactly once). -/
def dictDel {α : Type} (l : List (String × α)) (k : String) : List (String × α) :=
  l.eraseP (fun p => p.1 == k)

/-- `list(d.keys())`. -/
def dictKeys {α : Type} (l : List (String × α)) : List String :=
  l.map Prod.fst

/-- `d[k]` / `k in d` combined lookup. -/
def dictGet {α : Type} (l : List (String × α)) (k : String) : Option α :=
  (l.find? (fun p => p.1 == k)).map Prod.snd

/-- `disconnect` (lines 120-124): only when the id is an active connection
are both dict entries deleted; otherwise nothing happens and no error is
raised. -/
def ConnectionManager.disconnect (m : ConnectionManager) (device_id : String) :
    ConnectionManager :=
  if m.active_connections.any (fun p => p.1 == device_id) then
    { active_connections := dictDel m.active_connections device_id,
      device_registry := dictDel m.device_registry device_id }
  else m

/-- The guard `if exclude_device and device_id == exclude_device` (line 139):
Python truthiness makes both `None` and the empty string non-excluding. -/
def excludedBy (exclude_device : Option String) (device_id : String) : Bool :=
  match exclude_device with
  | none => false
  | some e => e != "" && device_id == e

/-- One sweep of the `for` loop in `broadcast` (lines 137-145): the ids
delivered to and the ids collected into `disconnected`, in iteration order. -/
def broadcastSweep (exclude_device : Option String) :
    List (String × Bool) → List String × List String
  | [] => ([], [])
  | (device_id, conn) :: rest =>
    let tail := broadcastSweep exclude_device rest
    if excludedBy exclude_device device_id then tail
    else if conn then (device_id :: tail.1, tail.2)
    else (tail.1, device_id :: tail.2)

/-- Everything observable about one `broadcast` call. -/
structure BroadcastOut where
  state : ConnectionManager
  delivered : List String
  disconnected : List String
  /-- the Python function body has no `return` statement, so the call
  evaluates to `None`. -/
  ret : Option ℕ
  deriving Repr, DecidableEq

/-- `broadcast` (lines 135-148): sweep over the full `active_connections`
snapshot (mutations happen only after the loop), then disconnect every
device that failed, in collection order. -/
def ConnectionManager.broadcast (m : ConnectionManager) (message : Event)
    (exclude_device : Option String) : BroadcastOut :=
  let sweep := broadcastSweep exclude_device m.active_connections
  { state := sweep.2.foldl ConnectionManager.disconnect m,
    delivered := sweep.1,
    disconnected := sweep.2,
    ret := none }

/-- `broadcast_status` (lines 126-133). -/
def ConnectionManager.broadcast_status (m : ConnectionManager) (now : ℕ) : BroadcastOut :=
  m.broadcast (Event.device_status (dictKeys m.device_registry) now) none

/-- `connect` (lines 109-118): accept, store the handle, create the registry
entry (type "unknown"), then `broadcast_status` (whose pruning of failed
sends is part of the resulting state). -/
def ConnectionManager.connect (m : ConnectionManager) (websocket : Bool)
    (device_id : String) (now : ℕ) : ConnectionManager :=
  let m' : ConnectionManager :=
    { active_connections := dictSet m.active_connections device_id websocket,
      device_registry := dictSet m.device_registry device_id
        { devtype := "unknown", connected_at := now, last_sync := none } }
  (m'.broadcast_status now).state

/-- `send_personal_message` (lines 150-157): unicast; a send failure
disconnects the target.  The `Bool` reports whether delivery succeeded. -/
def ConnectionManager.send_personal_message (m : ConnectionManager)
    (device_id : String) (message : Event) : ConnectionManager × Bool :=
  match dictGet m.active_connections device_id with
  | none => (m, false)
  | some conn => if conn then (m, true) else (m.disconnect device_id, false)

/-- The `except`/`finally` tail of `websocket_endpoint` (lines 399-403): on
any transport error or explicit close the handler only calls
`manager.disconnect`; no event of any kind is emitted on this path. -/
def wsClose (m : ConnectionManager) (device_id : String) :
    ConnectionManager × List (Event × Option String) :=
  (m.disconnect device_id, [])

/-- Keys of the two `ConnectionManager` dicts coincide. -/
def registryInv (m : ConnectionManager) : Prop :=
  dictKeys m.active_connections = dictKeys m.device_registry

/-- An empty payload dict. -/
def emptyPayload : Payload :=
  { title := none, value := none, computed_result := none, version := none }

/-- Registry entry used in concrete states below. -/
def someInfo : DeviceInfo := { devtype := "unknown", connected_at := 0, last_sync := none }

/-- Two healthy devices. -/
def mgrTwo : ConnectionManager :=
  { active_connections := [("d1", true), ("d2", true)],
    device_registry := [("d1", someInfo), ("d2", someInfo)] }

/-- Three devices, the middle one failing on send. -/
def mgrThree : ConnectionManager :=
  { active_connections := [("d1", true), ("d2", false), ("d3", true)],
    device_registry := [("d1", someInfo), ("d2", someInfo), ("d3", someInfo)] }

/-- An arbitrary event used where the payload is irrelevant. -/
def pingEvent : Event := Event.data_deleted "x" none

/-- A pre-existing record with id "A". -/
def recA : DataRecord :=
  { id := "A", title := some "t0", value := some 1, computed_result := none,
    created_at := 0, updated_at := 0, version := 3 }

/-- A record whose `value` is -25 (the compute example of the spec). -/
def rec25 : DataRecord :=
  { id := "a", title := none, value := some (-25), computed_result := none,
    created_at := 0, updated_at := 0, version := 1 }

/-- Create payload `{title: "t", value: 16}` of the spec scenario. -/
def payloadT16 : Payload :=
  { title := some "t", value := some 16, computed_result := none, version := none }

/-- Patch `{value: 20}` with `expectedVersion = 1`. -/
def patchV20 : Payload :=
  { title := none, value := some 20, computed_result := none, version := some 1 }

/-- Stale patch `{value: 30}` with `expectedVersion = 1`. -/
def patchV30 : Payload :=
  { title := none, value := some 30, computed_result := none, version := some 1 }

/-- Store after the scenario's create. -/
def dbAfterCreate : List DataRecord := (create_data [] payloadT16 "r1" 0).2.1

/-- Store after the scenario's first (successful) update. -/
def dbAfterUpdate : List DataRecord := (update_data dbAfterCreate "r1" patchV20 1).2.1

/-- The row the offline-replay create branch inserts for
`{type: "create", data: {title: "x"}}` (no `value` key) at time 5. -/
def replayCreatedRec : DataRecord :=
  { id := "n1", title := some "x", value := none, computed_result := none,
    created_at := 5, updated_at := 5, version := 1 }

/-- `recA` after one successful replay update with an empty patch at time 4. -/
def recAstep : DataRecord := replayApply recA emptyPayload 4

/-! ### Helper lemmas -/

theorem sqrt_abs_neg25 : Rat.sqrt (abs (-25 : ℚ)) * 100 = 500 := by
  have h : abs (-25 : ℚ) = 5 * 5 := by norm_num
  rw [h, Rat.sqrt_eq]; norm_num

theorem mutation_step_effect (r : DataRecord) (m : Mutation) (now : ℕ) (r' : DataRecord)
    (h : applyMutation r m now = some r') :
    r'.version = r.version + 1 ∧ r'.updated_at = now := by
  cases m with
  | condUpdate payload =>
    by_cases hc : payload.version.getD 0 ≠ 0 ∧ payload.version.getD 0 ≠ r.version
    · simp [applyMutation, hc] at h
    · simp only [applyMutation, if_neg hc, Option.some.injEq] at h
      subst h; exact ⟨rfl, rfl⟩
  | replayUpdate data =>
    simp only [applyMutation, Option.some.injEq] at h
    subst h; exact ⟨rfl, rfl⟩
  | compute =>
    cases hv : r.value with
    | none => simp [applyMutation, hv] at h
    | some v =>
      simp only [applyMutation, hv, Option.some.injEq] at h
      subst h; exact ⟨rfl, rfl⟩

theorem findRecord_append_left (db l : List DataRecord) (a : String) (r : DataRecord)
    (h : findRecord db a = some r) : findRecord (db ++ l) a = some r := by
  induction db with
  | nil => simp [findRecord] at h
  | cons b db ih =>
    unfold findRecord at h ⊢
    rw [List.cons_append]
    cases hb : (b.id == a) with
    | true =>
      simp only [List.find?_cons, hb] at h ⊢
      exact h
    | false =>
      simp only [List.find?_cons, hb] at h ⊢
      exact ih h

theorem findRecord_replaceRecord (db : List DataRecord) (r r' : DataRecord)
    (h : findRecord db r'.id = some r) :
    findRecord (replaceRecord db r') r'.id = some r' := by
  induction db with
  | nil => simp [findRecord] at h
  | cons b db ih =>
    cases hb : (b.id == r'.id) with
    | true =>
      have hrep : replaceRecord (b :: db) r' = r' :: replaceRecord db r' := by
        show (if b.id == r'.id then r' else b) :: replaceRecord db r'
            = r' :: replaceRecord db r'
        rw [hb, if_pos rfl]
      rw [hrep]
      unfold findRecord
      simp [List.find?_cons]
    | false =>
      have hrep : replaceRecord (b :: db) r' = b :: replaceRecord db r' := by
        show (if b.id == r'.id then r' else b) :: replaceRecord db r'
            = b :: replaceRecord db r'
        rw [hb, if_neg (by simp)]
      rw [hrep]
      unfold findRecord at h ⊢
      simp only [List.find?_cons, hb] at h ⊢
      exact ih h

theorem map_id_replaceRecord (db : List DataRecord) (r' : DataRecord) :
    (replaceRecord db r').map DataRecord.id = db.map DataRecord.id := by
  induction db with
  | nil => rfl
  | cons b db ih =>
    cases hb : (b.id == r'.id) with
    | true =>
      have hrep : replaceRecord (b :: db) r' = r' :: replaceRecord db r' := by
        show (if b.id == r'.id then r' else b) :: replaceRecord db r'
            = r' :: replaceRecord db r'
        rw [hb, if_pos rfl]
      rw [hrep, List.map_cons, List.map_cons, ih]
      congr 1
      exact (eq_of_beq hb).symm
    | false =>
      have hrep : replaceRecord (b :: db) r' = b :: replaceRecord db r' := by
        show (if b.id == r'.id then r' else b) :: replaceRecord db r'
            = b :: replaceRecord db r'
        rw [hb, if_neg (by simp)]
      rw [hrep, List.map_cons, List.map_cons, ih]

theorem id_ne_of_mem_eraseRecord (db : List DataRecord) (a : String)
    (h : (db.map DataRecord.id).Nodup) :
    ∀ r ∈ eraseRecord db a, r.id ≠ a := by
  induction db with
  | nil => intro r hr; simp [eraseRecord] at hr
  | cons b db ih =>
    intro r hr
    rw [List.map_cons, List.nodup_cons] at h
    have hrw : eraseRecord (b :: db) a
        = bif b.id == a then db else b :: eraseRecord db a := rfl
    cases hb : (b.id == a) with
    | true =>
      rw [hrw, hb, cond_true] at hr
      intro hra
      have hm : r.id ∈ db.map DataRecord.id := List.mem_map_of_mem DataRecord.id hr
      rw [hra] at hm
      exact h.1 (by rw [eq_of_beq hb]; exact hm)
    | false =>
      rw [hrw, hb, cond_false, List.mem_cons] at hr
      rcases hr with rfl | hr
      · intro hra; simp [hra] at hb
      · exact ih h.2 r hr

theorem excludedBy_false_of_ne (ex : Option String) (d : String) (h : ex ≠ some d) :
    excludedBy ex d = false := by
  cases ex with
  | none => rfl
  | some e =>
    have hde : d ≠ e := fun hde => h (by rw [hde])
    simp [excludedBy, hde]

theorem broadcastSweep_attempt (ex : Option String) (l : List (String × Bool)) :
    ∀ p ∈ l, excludedBy ex p.1 = false →
      (p.2 = true → p.1 ∈ (broadcastSweep ex l).1)
      ∧ (p.2 = false → p.1 ∈ (broadcastSweep ex l).2) := by
  induction l with
  | nil => intro p hp; simp at hp
  | cons q l ih =>
    intro p hp hex
    obtain ⟨d, c⟩ := q
    rcases List.mem_cons.mp hp with rfl | hp
    · cases hc : c with
      | true =>
        refine ⟨fun _ => ?_, fun hco => by simp [hc] at hco⟩
        simp [broadcastSweep, hex, hc]
      | false =>
        refine ⟨fun hco => by simp [hc] at hco, fun _ => ?_⟩
        simp [broadcastSweep, hex, hc]
    · have hmem := ih p hp hex
      cases hexd : excludedBy ex d with
      | true =>
        constructor
        · intro h2; simp only [broadcastSweep, hexd, if_pos]; exact hmem.1 h2
        · intro h2; simp only [broadcastSweep, hexd, if_pos]; exact hmem.2 h2
      | false =>
        cases hcd : c with
        | true =>
          constructor
          · intro h2
            simp only [broadcastSweep, hexd, hcd, Bool.false_eq_true, if_false, if_true]
            exact List.mem_cons_of_mem _ (hmem.1 h2)
          · intro h2
            simp only [broadcastSweep, hexd, hcd, Bool.false_eq_true, if_false, if_true]
            exact hmem.2 h2
        | false =>
          constructor
          · intro h2
            simp only [broadcastSweep, hexd, hcd, Bool.false_eq_true, if_false]
            exact hmem.1 h2
          · intro h2
            simp only [broadcastSweep, hexd, hcd, Bool.false_eq_true, if_false]
            exact List.mem_cons_of_mem _ (hmem.2 h2)

theorem broadcastSweep_excluded (ex : Option String) (l : List (String × Bool)) (e : String)
    (he : excludedBy ex e = true) :
    e ∉ (broadcastSweep ex l).1 ∧ e ∉ (broadcastSweep ex l).2 := by
  induction l with
  | nil => simp [broadcastSweep]
  | cons q l ih =>
    obtain ⟨d, c⟩ := q
    cases hexd : excludedBy ex d with
    | true =>
      constructor
      · intro hk; simp only [broadcastSweep, hexd, if_pos] at hk; exact ih.1 hk
      · intro hk; simp only [broadcastSweep, hexd, if_pos] at hk; exact ih.2 hk
    | false =>
      have hne : e ≠ d := by
        intro hde
        rw [← hde] at hexd
        rw [he] at hexd
        exact absurd hexd (by simp)
      cases hcd : c with
      | true =>
        constructor
        · intro hk
          simp only [broadcastSweep, hexd, hcd, Bool.false_eq_true, if_false, if_true] at hk
          rcases List.mem_cons.mp hk with hk | hk
          · exact hne hk
          · exact ih.1 hk
        · intro hk
          simp only [broadcastSweep, hexd, hcd, Bool.false_eq_true, if_false, if_true] at hk
          exact ih.2 hk
      | false =>
        constructor
        · intro hk
          simp only [broadcastSweep, hexd, hcd, Bool.false_eq_true, if_false] at hk
          exact ih.1 hk
        · intro hk
          simp only [broadcastSweep, hexd, hcd, Bool.false_eq_true, if_false] at hk
          rcases List.mem_cons.mp hk with hk | hk
          · exact hne hk
          · exact ih.2 hk

theorem any_eq_keys_any {α : Type} (l : List (String × α)) (k : String) :
    l.any (fun p => p.1 == k) = (dictKeys l).any (fun s => s == k) := by
  induction l with
  | nil => rfl
  | cons p l ih => simp only [dictKeys, List.map_cons, List.any_cons] at ih ⊢; rw [ih]

theorem dictKeys_overwrite {α : Type} (l : List (String × α)) (k : String) (v : α) :
    dictKeys (l.map (fun p => if p.1 == k then (k, v) else p)) = dictKeys l := by
  induction l with
  | nil => rfl
  | cons p l ih =>
    simp only [dictKeys, List.map_cons] at ih ⊢
    rw [ih]
    congr 1
    cases hp : (p.1 == k) with
    | true => rw [if_pos rfl]; exact (eq_of_beq hp).symm
    | false => rw [if_neg (by simp)]

theorem dictKeys_dictSet {α : Type} (l : List (String × α)) (k : String) (v : α) :
    dictKeys (dictSet l k v)
      = if (dictKeys l).any (fun s => s == k) then dictKeys l else dictKeys l ++ [k] := by
  unfold dictSet
  rw [← any_eq_keys_any]
  cases ha : l.any (fun p => p.1 == k) with
  | true =>
    rw [if_pos rfl, if_pos rfl]
    exact dictKeys_overwrite l k v
  | false =>
    rw [if_neg (by simp), if_neg (by simp)]
    simp [dictKeys]

theorem dictKeys_dictDel {α : Type} (l : List (String × α)) (k : String) :
    dictKeys (dictDel l k) = (dictKeys l).eraseP (fun s => s == k) := by
  induction l with
  | nil => rfl
  | cons p l ih =>
    have hdel : dictDel (p :: l) k = bif p.1 == k then l else p :: dictDel l k := rfl
    have hkeys : (dictKeys (p :: l)).eraseP (fun s => s == k)
        = bif p.1 == k then dictKeys l else p.1 :: (dictKeys l).eraseP (fun s => s == k) := rfl
    cases hp : (p.1 == k) with
    | true => rw [hdel, hkeys, hp, cond_true, cond_true]
    | false =>
      rw [hdel, hkeys, hp, cond_false, cond_false]
      show p.1 :: dictKeys (dictDel l k) = p.1 :: (dictKeys l).eraseP (fun s => s == k)
      rw [ih]

theorem not_mem_eraseP_self (ks : List String) (k : String) (h : ks.Nodup) :
    k ∉ ks.eraseP (fun s => s == k) := by
  induction ks with
  | nil => simp
  | cons a l ih =>
    rw [List.nodup_cons] at h
    have hrw : (a :: l).eraseP (fun s => s == k)
        = bif a == k then l else a :: l.eraseP (fun s => s == k) := rfl
    cases ha : (a == k) with
    | true =>
      rw [hrw, ha, cond_true]
      intro hk
      exact h.1 ((eq_of_beq ha) ▸ hk)
    | false =>
      rw [hrw, ha, cond_false]
      intro hk
      rcases List.mem_cons.mp hk with rfl | hk
      · simp at ha
      · exact ih h.2 hk

theorem registryInv_disconnect (m : ConnectionManager) (d : String) (h : registryInv m) :
    registryInv (m.disconnect d) := by
  unfold ConnectionManager.disconnect
  cases ha : m.active_connections.any (fun p => p.1 == d) with
  | true =>
    rw [if_pos rfl]
    show dictKeys (dictDel m.active_connections d) = dictKeys (dictDel m.device_registry d)
    rw [dictKeys_dictDel, dictKeys_dictDel, h]
  | false =>
    rw [if_neg (by simp)]
    exact h

theorem registryInv_foldl_disconnect (ds : List String) :
    ∀ m : ConnectionManager, registryInv m →
      registryInv (ds.foldl ConnectionManager.disconnect m) := by
  induction ds with
  | nil => intro m h; exact h
  | cons d ds ih =>
    intro m h
    exact ih (m.disconnect d) (registryInv_disconnect m d h)

theorem registryInv_broadcast (m : ConnectionManager) (ev : Event) (ex : Option String)
    (h : registryInv m) : registryInv (m.broadcast ev ex).state :=
  registryInv_foldl_disconnect _ m h

theorem disconnect_of_not_mem (m : ConnectionManager) (d : String)
    (h : d ∉ dictKeys m.active_connections) : m.disconnect d = m := by
  unfold ConnectionManager.disconnect
  have ha : m.active_connections.any (fun p => p.1 == d) = false := by
    rw [any_eq_keys_any]
    rw [List.any_eq_false]
    intro s hs
    simp only [beq_iff_eq]
    intro hsd
    exact h (hsd ▸ hs)
  rw [if_neg (by simp [ha])]

/-! ### Claim theorems -/

/-- C8: creating `{title: "t", value: 16}` yields version 1; a conditional
update of `value` to 20 with expected version 1 succeeds with version 2,
fields absent from the patch (title, computed_result) retaining their prior
values; a second update with the stale expected version 1 fails with a
version conflict reporting current version 2 and leaves the store
unchanged. -/
theorem create_update_stale_scenario :
    (create_data [] payloadT16 "r1" 0).1.version = 1
  ∧ (update_data dbAfterCreate "r1" patchV20 1).1 = UpdateResult.updated 2
  ∧ findRecord dbAfterUpdate "r1"
      = some { id := "r1", title := some "t", value := some 20, computed_result := none,
               created_at := 0, updated_at := 1, version := 2 }
  ∧ (update_data dbAfterUpdate "r1" patchV30 2).1 = UpdateResult.conflict 2
  ∧ (update_data dbAfterUpdate "r1" patchV30 2).2.1 = dbAfterUpdate := by
  decide

/-- C2: on an existing record the REST PUT handler fails with a version
conflict iff the supplied expected version is nonzero and differs from the
current version; on that failure it reports the record's current version and
leaves the store (and broadcast log) untouched; an absent id yields NotFound
with the store untouched. -/
theorem conditional_update_conflict_spec (db : List DataRecord) (record_id : String)
    (payload : Payload) (now : ℕ) :
    (findRecord db record_id = none →
        update_data db record_id payload now = (UpdateResult.notFound, db, []))
  ∧ ∀ record, findRecord db record_id = some record →
      ((∃ cv, (update_data db record_id payload now).1 = UpdateResult.conflict cv)
          ↔ payload.version.getD 0 ≠ 0 ∧ payload.version.getD 0 ≠ record.version)
      ∧ (payload.version.getD 0 ≠ 0 ∧ payload.version.getD 0 ≠ record.version →
          update_data db record_id payload now = (UpdateResult.conflict record.version, db, [])) := by
  constructor
  · intro h
    simp [update_data, h]
  · intro record h
    by_cases hc : payload.version.getD 0 ≠ 0 ∧ payload.version.getD 0 ≠ record.version
    · constructor
      · simp [update_data, h, hc]
      · intro _
        simp [update_data, h, hc]
    · constructor
      · simp only [update_data, h, if_neg hc]
        constructor
        · rintro ⟨cv, hcv⟩
          simp at hcv
        · intro hcon
          exact absurd hcon hc
      · intro hcon
        exact absurd hcon hc

/-- C2 witness: a concrete conflicting update (expected version 1 against
current version 3) returns the current version and leaves the store
unchanged. -/
theorem conditional_update_conflict_spec_witness :
    (findRecord [recA] "A" = some recA
      ∧ (patchV20.version.getD 0 ≠ 0 ∧ patchV20.version.getD 0 ≠ recA.version))
  ∧ update_data [recA] "A" patchV20 9 = (UpdateResult.conflict 3, [recA], []) := by
  refine ⟨⟨by decide, by decide⟩, ?_⟩
  exact ((conditional_update_conflict_spec [recA] "A" patchV20 9).2 recA
    (by decide)).2 ⟨by decide, by decide⟩

/-- C1: a freshly created record (REST create and offline-replay create
alike) has version 1 and `created_at = updated_at`; every successful
mutation (conditional update, replay update, compute) increments the version
by exactly 1 and stamps `updated_at` with the mutation time; hence along any
run of successful mutations whose clock readings are non-decreasing the
version grows by exactly 1 per step and `updated_at` never decreases. -/
theorem version_increment_monotonic :
    (∀ db payload newId now,
        (create_data db payload newId now).1.version = 1
        ∧ (create_data db payload newId now).1.created_at
            = (create_data db payload newId now).1.updated_at)
  ∧ (∀ db data newId device_id now,
        (replayOp device_id now db (OfflineOp.create newId data)).1
          = db ++ [{ id := newId, title := data.title, value := data.value,
                     computed_result := none, created_at := now, updated_at := now,
                     version := 1 }])
  ∧ (∀ r m t r', applyMutation r m t = some r' →
        r'.version = r.version + 1 ∧ r'.updated_at = t)
  ∧ (∀ r steps r', RunMutations r steps r' →
        List.Chain' (fun a b => a ≤ b) (r.updated_at :: steps.map Prod.snd) →
        r'.version = r.version + steps.length ∧ r.updated_at ≤ r'.updated_at) := by
  refine ⟨fun db payload newId now => ⟨rfl, rfl⟩,
    fun db data newId device_id now => rfl,
    fun r m t r' h => mutation_step_effect r m t r' h, ?_⟩
  intro r steps r' hrun
  induction hrun with
  | nil => intro _; simp
  | cons hstep hrest ih =>
    intro hchain
    obtain ⟨hv, ht⟩ := mutation_step_effect _ _ _ _ hstep
    rw [List.map_cons, List.chain'_cons] at hchain
    have hchain' := ht ▸ hchain.2
    obtain ⟨ihv, iht⟩ := ih hchain'
    constructor
    · rw [ihv, hv, List.length_cons]; omega
    · exact le_trans (ht ▸ hchain.1) iht

/-- C1 witness: one successful replay-update step on `recA` at time 4. -/
theorem version_increment_monotonic_witness :
    (applyMutation recA (Mutation.replayUpdate emptyPayload) 4 = some recAstep
      ∧ List.Chain' (fun a b => a ≤ b)
          (recA.updated_at :: ([(Mutation.replayUpdate emptyPayload, 4)].map Prod.snd)))
  ∧ (recAstep.version = recA.version + 1 ∧ recAstep.updated_at = 4)
  ∧ (recAstep.version = recA.version + 1 ∧ recA.updated_at ≤ recAstep.updated_at) := by
  refine ⟨⟨by decide, by simp [List.chain'_cons, recA]⟩,
    version_increment_monotonic.2.2.1 recA (Mutation.replayUpdate emptyPayload) 4 recAstep
      (by decide), ?_⟩
  exact version_increment_monotonic.2.2.2 recA [(Mutation.replayUpdate emptyPayload, 4)]
    recAstep (RunMutations.cons (by decide) (RunMutations.nil recAstep))
    (by simp [List.chain'_cons, recA])

/-- C7 counterexample: replaying `{type: "create", data: {title: "x"}}` (no
`value` key) inserts a row whose `value` is NULL, not the default 0 the claim
asserts — only the REST create normalises a missing `value` to 0. -/
theorem replay_create_missing_value_cex :
    (replayOp "dev" 5 []
        (OfflineOp.create "n1"
          { title := some "x", value := none, computed_result := none, version := none })).1
      = [replayCreatedRec]
  ∧ replayCreatedRec.value = none
  ∧ replayCreatedRec.value ≠ some 0 := by
  decide

/-- C7 amended: both create paths never fail, produce version 1 and
`created_at = updated_at`; the REST create normalises a missing `value` to
the default 0, while the offline-replay create stores the raw
`op["data"].get("value")` — NULL when the key is missing. -/
theorem create_defaults_amended (db : List DataRecord) (payload : Payload)
    (newId device_id : String) (now : ℕ) :
    ((create_data db payload newId now).1.version = 1
      ∧ (create_data db payload newId now).1.created_at
          = (create_data db payload newId now).1.updated_at
      ∧ (create_data db payload newId now).1.value = some (payload.value.getD 0)
      ∧ (create_data db payload newId now).2.1 = db ++ [(create_data db payload newId now).1])
  ∧ replayOp device_id now db (OfflineOp.create newId payload)
      = (db ++ [{ id := newId, title := payload.title, value := payload.value,
                  computed_result := none, created_at := now, updated_at := now,
                  version := 1 }],
         [(Event.data_created newId payload.title payload.value none none, some device_id)]) :=
  ⟨⟨rfl, rfl, rfl, rfl⟩, rfl⟩

/-- C10: an offline-replay update writes only `title`, `value`, `version` and
`updated_at` of the target row; `computed_result` (as well as `id` and
`created_at`) is untouched even when the operation's data carries a
`computed_result` value — whereas the REST update success path does apply a
`computed_result` present in its payload. -/
theorem replay_update_frame_spec :
    (∀ db record_id device_id data now record,
        findRecord db record_id = some record →
          (replayOp device_id now db (OfflineOp.update record_id data)).1
              = replaceRecord db (replayApply record data now)
          ∧ (replayApply record data now).computed_result = record.computed_result
          ∧ (replayApply record data now).id = record.id
          ∧ (replayApply record data now).created_at = record.created_at)
  ∧ (∀ r data now c, data.computed_result = some c →
        (replayApply r data now).computed_result = r.computed_result
        ∧ (condApply r data now).computed_result = some c) := by
  constructor
  · intro db record_id device_id data now record h
    refine ⟨?_, rfl, rfl, rfl⟩
    simp [replayOp, h]
  · intro r data now c hc
    exact ⟨rfl, by simp [condApply, hc]⟩

/-- C10 witness: a replay update whose data carries `computed_result = 7`
leaves the stored `computed_result` alone, while the REST success path would
set it to 7. -/
theorem replay_update_frame_spec_witness :
    ({ title := none, value := none, computed_result := some 7,
       version := none } : Payload).computed_result = some 7
  ∧ (replayApply recA
        { title := none, value := none, computed_result := some 7, version := none } 6
      ).computed_result = recA.computed_result
  ∧ (condApply recA
        { title := none, value := none, computed_result := some 7, version := none } 6
      ).computed_result = some 7 := by
  refine ⟨by decide, ?_⟩
  exact replay_update_frame_spec.2 recA
    { title := none, value := none, computed_result := some 7, version := none } 6 7 rfl

/-- C5: a `compute_request` on an existing record with numeric value `v` sets
`computed_result = sqrt(abs(v)) * 100`, bumps the version by exactly 1, and
broadcasts a single `compute_result` event excluding the requesting device;
on a missing record id nothing changes, nothing is broadcast, and no error
response is produced; concretely a value of -25 computes 500. -/
theorem compute_request_spec (db : List DataRecord) (record_id device_id : String) (now : ℕ) :
    (∀ record v, findRecord db record_id = some record → record.value = some v →
        computeRequest device_id now db record_id
            = some (replaceRecord db (computeApply record v now),
                [(Event.compute_result record_id (Rat.sqrt (abs v) * 100)
                    (record.version + 1) now, some device_id)])
        ∧ (computeApply record v now).version = record.version + 1
        ∧ (computeApply record v now).computed_result = some (Rat.sqrt (abs v) * 100))
  ∧ (findRecord db record_id = none →
      computeRequest device_id now db record_id = some (db, []))
  ∧ (computeApply rec25 (-25) now).computed_result = some 500 := by
  refine ⟨?_, ?_, ?_⟩
  · intro record v hfind hv
    constructor
    · simp [computeRequest, computeApply, hfind, hv]
    · exact ⟨rfl, rfl⟩
  · intro hfind
    simp [computeRequest, hfind]
  · show some (Rat.sqrt (abs (-25 : ℚ)) * 100) = some 500
    rw [sqrt_abs_neg25]

/-- C5 witness: the concrete -25 record: found, numeric, version bumped from
1 to 2 and `computed_result` set to 500. -/
theorem compute_request_spec_witness :
    (findRecord [rec25] "a" = some rec25 ∧ rec25.value = some (-25))
  ∧ (computeApply rec25 (-25) 9).version = rec25.version + 1
  ∧ (computeApply rec25 (-25) 9).computed_result = some 500 := by
  refine ⟨⟨by decide, by decide⟩, ?_, ?_⟩
  · exact ((compute_request_spec [rec25] "a" "d" 9).1 rec25 (-25) (by decide) (by decide)).2.1
  · exact (compute_request_spec [rec25] "a" "d" 9).2.2

/-- C3 counterexample: a broadcast to two healthy devices delivers twice, yet
the call does not return the delivered count — the Python function body has
no `return` statement, so the call evaluates to `None`. -/
theorem broadcast_returns_none_cex :
    (mgrTwo.broadcast pingEvent none).delivered.length = 2
  ∧ (mgrTwo.broadcast pingEvent none).ret = none
  ∧ (mgrTwo.broadcast pingEvent none).ret ≠ some 2 := by
  decide

/-- C3 amended: a broadcast attempts delivery to every device registered at
the start of the call except the excluded one (a failure mid-sweep does not
stop later attempts: every healthy non-excluded device ends up delivered,
every failing one collected); when the excluded id is non-empty (Python
truthiness: an empty excluded id disables exclusion) no delivery is ever
attempted to it; the failed devices are disconnected only after the full
sweep; and the call returns `None`, not the delivered count. -/
theorem broadcast_spec_amended (m : ConnectionManager) (message : Event)
    (exclude_device : Option String) :
    (∀ p, p ∈ m.active_connections → exclude_device ≠ some p.1 →
        (p.2 = true → p.1 ∈ (m.broadcast message exclude_device).delivered)
        ∧ (p.2 = false → p.1 ∈ (m.broadcast message exclude_device).disconnected))
  ∧ (∀ e, exclude_device = some e → e ≠ "" →
        e ∉ (m.broadcast message exclude_device).delivered
        ∧ e ∉ (m.broadcast message exclude_device).disconnected)
  ∧ (m.broadcast message exclude_device).state
      = (m.broadcast message exclude_device).disconnected.foldl ConnectionManager.disconnect m
  ∧ (m.broadcast message exclude_device).ret = none := by
  refine ⟨?_, ?_, rfl, rfl⟩
  · intro p hp hex
    exact broadcastSweep_attempt exclude_device m.active_connections p hp
      (excludedBy_false_of_ne exclude_device p.1 hex)
  · intro e hex hne
    apply broadcastSweep_excluded exclude_device m.active_connections e
    rw [hex]
    simp [excludedBy, hne]

/-- C3 amended witness: broadcasting to three devices (the middle one
failing) with "d3" excluded: the failure does not stop delivery to "d3"
being skipped and "d1" delivered; "d2" is collected and pruned only after
the sweep; the call returns `None`. -/
theorem broadcast_spec_amended_witness :
    (("d2", false) ∈ mgrThree.active_connections ∧ some "d3" ≠ some "d2"
      ∧ some "d3" = some "d3" ∧ "d3" ≠ "")
  ∧ "d2" ∈ (mgrThree.broadcast pingEvent (some "d3")).disconnected
  ∧ "d3" ∉ (mgrThree.broadcast pingEvent (some "d3")).delivered
  ∧ (mgrThree.broadcast pingEvent (some "d3")).ret = none := by
  have h := broadcast_spec_amended mgrThree pingEvent (some "d3")
  exact ⟨⟨by decide, by decide, rfl, by decide⟩,
    (h.1 ("d2", false) (by decide) (by decide)).2 rfl,
    (h.2.1 "d3" rfl (by decide)).1, h.2.2.2⟩

/-- C9: the sets of device ids in `active_connections` and `device_registry`
always coincide: `connect`, `disconnect`, `broadcast` (with its post-sweep
pruning) and `send_personal_message` (with pruning on send failure) all
preserve the key-list equality of the two maps; `disconnect` of an
unregistered id changes nothing and raises nothing; and the invariant gives
the claimed set equality. -/
theorem connection_maps_consistent :
    (∀ (m : ConnectionManager) (ws : Bool) (d : String) (now : ℕ),
        registryInv m → registryInv (m.connect ws d now))
  ∧ (∀ (m : ConnectionManager) (d : String),
        registryInv m → registryInv (m.disconnect d))
  ∧ (∀ (m : ConnectionManager) (ev : Event) (ex : Option String),
        registryInv m → registryInv (m.broadcast ev ex).state)
  ∧ (∀ (m : ConnectionManager) (d : String) (ev : Event),
        registryInv m → registryInv (m.send_personal_message d ev).1)
  ∧ (∀ (m : ConnectionManager) (d : String),
        d ∉ dictKeys m.active_connections → m.disconnect d = m)
  ∧ (∀ m : ConnectionManager, registryInv m →
        ∀ x, x ∈ dictKeys m.active_connections ↔ x ∈ dictKeys m.device_registry) := by
  refine ⟨?_, registryInv_disconnect, registryInv_broadcast, ?_, disconnect_of_not_mem, ?_⟩
  · intro m ws d now h
    apply registryInv_broadcast
    show dictKeys (dictSet m.active_connections d ws) = dictKeys (dictSet m.device_registry d _)
    rw [dictKeys_dictSet, dictKeys_dictSet, h]
  · intro m d ev h
    unfold ConnectionManager.send_personal_message
    cases hg : dictGet m.active_connections d with
    | none => exact h
    | some conn =>
      cases conn with
      | true => exact h
      | false => exact registryInv_disconnect m d h
  · intro m h x
    rw [show registryInv m from h]

/-- C9 witness: the invariant holds of a concrete two-device manager and is
preserved by disconnecting "d1". -/
theorem connection_maps_consistent_witness :
    registryInv mgrTwo ∧ registryInv (mgrTwo.disconnect "d1") := by
  exact ⟨by rfl, connection_maps_consistent.2.1 mgrTwo "d1" (by rfl)⟩

/-- C6 counterexample: closing the session of "d1" (of two connected
devices) removes it from both maps but emits no event whatsoever — in
particular no `device_status` broadcast reaches the remaining "d2", contrary
to the claim. -/
theorem close_no_status_broadcast_cex :
    (wsClose mgrTwo "d1").2 = []
  ∧ dictKeys (wsClose mgrTwo "d1").1.active_connections = ["d2"]
  ∧ dictKeys (wsClose mgrTwo "d1").1.device_registry = ["d2"] := by
  decide

/-- C6 amended: on any transport error or explicit close the device is
removed from both the device registry and the connection map, but no
`device_status` (nor any other) event is broadcast to the remaining
devices. -/
theorem close_removes_device_amended (m : ConnectionManager) (d : String)
    (hinv : registryInv m) (hnd : (dictKeys m.active_connections).Nodup) :
    d ∉ dictKeys (wsClose m d).1.active_connections
  ∧ d ∉ dictKeys (wsClose m d).1.device_registry
  ∧ (wsClose m d).2 = [] := by
  have hact : d ∉ dictKeys (ConnectionManager.disconnect m d).active_connections := by
    by_cases hd : d ∈ dictKeys m.active_connections
    · have ha : m.active_connections.any (fun p => p.1 == d) = true := by
        rw [any_eq_keys_any, List.any_eq_true]
        exact ⟨d, hd, by simp⟩
      unfold ConnectionManager.disconnect
      rw [if_pos ha]
      show d ∉ dictKeys (dictDel m.active_connections d)
      rw [dictKeys_dictDel]
      exact not_mem_eraseP_self _ d hnd
    · rw [disconnect_of_not_mem m d hd]
      exact hd
  have hreg : d ∉ dictKeys (ConnectionManager.disconnect m d).device_registry := by
    by_cases hd : d ∈ dictKeys m.active_connections
    · have ha : m.active_connections.any (fun p => p.1 == d) = true := by
        rw [any_eq_keys_any, List.any_eq_true]
        exact ⟨d, hd, by simp⟩
      unfold ConnectionManager.disconnect
      rw [if_pos ha]
      show d ∉ dictKeys (dictDel m.device_registry d)
      rw [dictKeys_dictDel, ← hinv]
      exact not_mem_eraseP_self _ d hnd
    · rw [disconnect_of_not_mem m d hd]
      show d ∉ dictKeys m.device_registry
      rw [← hinv]
      exact hd
  exact ⟨hact, hreg, rfl⟩

/-- C6 amended witness: disconnecting "d1" from the concrete two-device
manager removes it from both maps and emits nothing. -/
theorem close_removes_device_amended_witness :
    (registryInv mgrTwo ∧ (dictKeys mgrTwo.active_connections).Nodup)
  ∧ "d1" ∉ dictKeys (wsClose mgrTwo "d1").1.active_connections
  ∧ "d1" ∉ dictKeys (wsClose mgrTwo "d1").1.device_registry
  ∧ (wsClose mgrTwo "d1").2 = [] := by
  have h := close_removes_device_amended mgrTwo "d1" (by rfl) (by decide)
  exact ⟨⟨by rfl, by decide⟩, h.1, h.2.1, h.2.2⟩

/-- C4: offline-queue replay applies operations strictly in order and never
atomically: an update or delete whose target row is absent is silently
skipped (store unchanged, no broadcast, no error, remaining operations still
processed); replaying `[create, update A, delete A]` against a store holding
a record with id A (the create's fresh server-generated id being new) leaves
no record with id A in the final store while broadcasting exactly the
create + update events and one delete event, each excluding the sender. -/
theorem offline_batch_replay_spec (db : List DataRecord) (recOld : DataRecord)
    (device_id newId : String) (dataC dataU : Payload) (now : ℕ)
    (hfind : findRecord db recOld.id = some recOld)
    (hnodup : (db.map DataRecord.id).Nodup)
    (hfresh : newId ∉ db.map DataRecord.id) :
    (∀ r ∈ (replayOps device_id now db
        [OfflineOp.create newId dataC, OfflineOp.update recOld.id dataU,
         OfflineOp.delete recOld.id]).1, r.id ≠ recOld.id)
  ∧ (replayOps device_id now db
        [OfflineOp.create newId dataC, OfflineOp.update recOld.id dataU,
         OfflineOp.delete recOld.id]).2
      = [(Event.data_created newId dataC.title dataC.value none none, some device_id),
         (Event.data_updated recOld.id (replayApply recOld dataU now).title
            (replayApply recOld dataU now).value none (recOld.version + 1) none,
          some device_id),
         (Event.data_deleted recOld.id none, some device_id)]
  ∧ (∀ (db' : List DataRecord) (rid : String) (data : Payload) (rest : List OfflineOp),
        findRecord db' rid = none →
          replayOp device_id now db' (OfflineOp.update rid data) = (db', [])
          ∧ replayOps device_id now db' (OfflineOp.update rid data :: rest)
              = replayOps device_id now db' rest)
  ∧ (∀ (db' : List DataRecord) (rid : String) (rest : List OfflineOp),
        findRecord db' rid = none →
          replayOp device_id now db' (OfflineOp.delete rid) = (db', [])
          ∧ replayOps device_id now db' (OfflineOp.delete rid :: rest)
              = replayOps device_id now db' rest)
  ∧ (∀ (db' : List DataRecord) (op : OfflineOp) (rest : List OfflineOp),
        replayOps device_id now db' (op :: rest)
          = ((replayOps device_id now (replayOp device_id now db' op).1 rest).1,
             (replayOp device_id now db' op).2
               ++ (replayOps device_id now (replayOp device_id now db' op).1 rest).2)) := by
  have e1 : replayOp device_id now db (OfflineOp.create newId dataC)
      = (db ++ [replayCreateRow newId dataC now],
         [(Event.data_created newId dataC.title dataC.value none none,
           some device_id)]) := rfl
  have h1 : findRecord (db ++ [replayCreateRow newId dataC now]) recOld.id = some recOld :=
    findRecord_append_left db _ recOld.id recOld hfind
  have e2 : replayOp device_id now (db ++ [replayCreateRow newId dataC now]) (OfflineOp.update recOld.id dataU)
      = (replaceRecord (db ++ [replayCreateRow newId dataC now])
            (replayApply recOld dataU now),
         [(Event.data_updated recOld.id (replayApply recOld dataU now).title
             (replayApply recOld dataU now).value none
             (replayApply recOld dataU now).version none, some device_id)]) := by
    simp [replayOp, replayApply, h1]
  have h2 : findRecord (replaceRecord (db ++ [replayCreateRow newId dataC now]) (replayApply recOld dataU now)) recOld.id
      = some (replayApply recOld dataU now) :=
    findRecord_replaceRecord _ recOld (replayApply recOld dataU now) h1
  have e3 : replayOp device_id now (replaceRecord (db ++ [replayCreateRow newId dataC now])
        (replayApply recOld dataU now)) (OfflineOp.delete recOld.id)
      = (eraseRecord (replaceRecord (db ++ [replayCreateRow newId dataC now]) (replayApply recOld dataU now)) recOld.id,
         [(Event.data_deleted recOld.id none, some device_id)]) := by
    simp [replayOp, h2]
  have hnodup2 : ((replaceRecord (db ++ [replayCreateRow newId dataC now])
        (replayApply recOld dataU now)).map DataRecord.id).Nodup := by
    rw [map_id_replaceRecord, List.map_append]
    rw [List.nodup_append]
    refine ⟨hnodup, List.nodup_singleton _, ?_⟩
    intro a ha hb
    rw [List.map_singleton, List.mem_singleton] at hb
    have hbid : (replayCreateRow newId dataC now).id = newId := rfl
    rw [hbid] at hb
    exact hfresh (hb ▸ ha)
  refine ⟨?_, ?_, ?_, ?_, ?_⟩
  · intro r hr
    simp only [replayOps, e1, e2, e3] at hr
    exact id_ne_of_mem_eraseRecord _ recOld.id hnodup2 r hr
  · simp only [replayOps, e1, e2, e3]
    rfl
  · intro db' rid data rest h
    constructor
    · simp [replayOp, h]
    · simp [replayOps, replayOp, h]
  · intro db' rid rest h
    constructor
    · simp [replayOp, h]
    · simp [replayOps, replayOp, h]
  · intro db' op rest
    rfl

/-- C4 witness: the concrete store `[recA]`, sender "dev", fresh id "b" and
empty patches: the logged broadcasts are exactly create + update + delete,
each excluding "dev". -/
theorem offline_batch_replay_spec_witness :
    (findRecord [recA] recA.id = some recA
      ∧ ([recA].map DataRecord.id).Nodup
      ∧ "b" ∉ [recA].map DataRecord.id)
  ∧ (replayOps "dev" 5 [recA]
        [OfflineOp.create "b" emptyPayload, OfflineOp.update recA.id emptyPayload,
         OfflineOp.delete recA.id]).2
      = [(Event.data_created "b" none none none none, some "dev"),
         (Event.data_updated recA.id (replayApply recA emptyPayload 5).title
            (replayApply recA emptyPayload 5).value none (recA.version + 1) none,
          some "dev"),
         (Event.data_deleted recA.id none, some "dev")] := by
  refine ⟨⟨by decide, by decide, by decide⟩, ?_⟩
  exact (offline_batch_replay_spec [recA] recA "dev" "b" emptyPayload emptyPayload 5
    (by decide) (by decide) (by decide)).2.1

end SyncApp
